import Mathlib

/-!
Verification development for `src/github_contributions_script.py`
(gh-contribution-analyzer).

The script's core pipeline is embedded shallowly:
* `parse_datetime` — the timestamp normalizer (three `strptime` formats
  tried in order, result truncated to a calendar date);
* `fetchLoop` / `fetch_commits_for_contributor` — the paginated commit
  fetcher with its rate-limit retry, page ceiling and exception handling;
* `bucketRows` / `aggregate` / `analyze_contributions` — the pandas
  groupby-sum aggregation into daily / weekly / monthly tables and the
  orchestrator loop over repositories and contributors;
* `export_reports` — modelled by the list of CSV files it would write.
-/

namespace GHContrib

/-- A calendar date, the value of Python's `datetime.date(year, month, day)`. -/
structure Date where
  year : Nat
  month : Nat
  day : Nat
deriving DecidableEq, Repr

/-- Gregorian leap-year rule, as used by Python's `datetime`. -/
def isLeap (y : Nat) : Bool := (y % 4 == 0 && y % 100 != 0) || y % 400 == 0

/-- Number of days in month `m` of year `y` (0 for an out-of-range month). -/
def daysInMonth (y m : Nat) : Nat :=
  match m with
  | 1 => 31
  | 2 => if isLeap y then 29 else 28
  | 3 => 31
  | 4 => 30
  | 5 => 31
  | 6 => 30
  | 7 => 31
  | 8 => 31
  | 9 => 30
  | 10 => 31
  | 11 => 30
  | 12 => 31
  | _ => 0

/-- Numeric value of a digit character. -/
def digitVal (c : Char) : Nat := c.toNat - 48

/-- A 1-2 digit numeric field of CPython `_strptime`'s directive regexes
(e.g. `%m` is `1[0-2]|0[1-9]|[1-9]`).  The two-digit alternatives come
first, so two digits are consumed whenever their value is accepted by
`valid2`; otherwise a single digit accepted by `valid1` is consumed.  In
every format of the source the field is followed by a non-digit, so this
deterministic longest-valid match coincides with the regex semantics. -/
def parseField (valid2 valid1 : Nat → Bool) : List Char → Option (Nat × List Char)
  | c1 :: c2 :: rest =>
    if c1.isDigit && c2.isDigit && valid2 (10 * digitVal c1 + digitVal c2) then
      some (10 * digitVal c1 + digitVal c2, rest)
    else if c1.isDigit && valid1 (digitVal c1) then
      some (digitVal c1, c2 :: rest)
    else none
  | [c1] => if c1.isDigit && valid1 (digitVal c1) then some (digitVal c1, []) else none
  | [] => none

/-- `%Y`: exactly four digits (`\d\d\d\d` in `_strptime`). -/
def parseYear : List Char → Option (Nat × List Char)
  | c1 :: c2 :: c3 :: c4 :: rest =>
    if c1.isDigit && c2.isDigit && c3.isDigit && c4.isDigit then
      some (1000 * digitVal c1 + 100 * digitVal c2 + 10 * digitVal c3 + digitVal c4, rest)
    else none
  | _ => none

/-- `%m`: `1[0-2]|0[1-9]|[1-9]`. -/
def parseMonth : List Char → Option (Nat × List Char) :=
  parseField (fun v => decide (1 ≤ v ∧ v ≤ 12)) (fun v => decide (1 ≤ v))

/-- `%d`: `3[01]|[12]\d|0[1-9]|[1-9]`. -/
def parseDay : List Char → Option (Nat × List Char) :=
  parseField (fun v => decide (1 ≤ v ∧ v ≤ 31)) (fun v => decide (1 ≤ v))

/-- `%H`: `2[0-3]|[0-1]\d|\d`. -/
def parseHour : List Char → Option (Nat × List Char) :=
  parseField (fun v => decide (v ≤ 23)) (fun _ => true)

/-- `%M`: `[0-5]\d|\d`. -/
def parseMinute : List Char → Option (Nat × List Char) :=
  parseField (fun v => decide (v ≤ 59)) (fun _ => true)

/-- `%S`: `6[0-1]|[0-5]\d|\d` (60 and 61 pass the regex; the `datetime`
constructor later rejects them, see `validDT`). -/
def parseSecond : List Char → Option (Nat × List Char) :=
  parseField (fun v => decide (v ≤ 61)) (fun _ => true)

/-- A literal character of the format string.  `_strptime` compiles its
regex with `IGNORECASE`, so literals match case-insensitively. -/
def lit (c : Char) : List Char → Option (List Char)
  | x :: rest => if x.toLower = c.toLower then some rest else none
  | [] => none

/-- Drop at most `n` leading digit characters (greedy tail of `%f`). -/
def dropDigits : Nat → List Char → List Char
  | 0, cs => cs
  | _ + 1, [] => []
  | n + 1, c :: cs => if c.isDigit then dropDigits n cs else c :: cs

/-- `%f`: `[0-9]{1,6}`, greedy.  The fractional value is discarded by
`parse_datetime` (only the date survives), so only the span matters. -/
def parseFrac : List Char → Option (List Char)
  | c :: rest => if c.isDigit then some (dropDigits 5 rest) else none
  | [] => none

/-- Final offset-range check of `%z`: `datetime.timezone` accepts only
offsets strictly between -24 h and +24 h. -/
def zFinish (hh mm ss : Nat) (rest : List Char) : Option (List Char) :=
  if hh * 3600 + mm * 60 + ss < 86400 then some rest else none

/-- Optional fraction `\.\d{1,6}` after the seconds of a `%z` offset. -/
def zOptFrac : List Char → List Char
  | '.' :: c :: rest => if c.isDigit then dropDigits 5 rest else '.' :: c :: rest
  | cs => cs

/-- Optional seconds of `%z` (`(:?\d\d(\.\d{1,6})?)?`), together with
CPython's consistency check: after the regex match, `_strptime` raises
`ValueError` when a colon separates hours from minutes but not minutes
from seconds, or conversely (it ends up calling `int` on a string
containing `:`).  `col1` records whether the hour-minute colon was
present. -/
def parseZSec (col1 : Bool) (hh mm : Nat) (cs : List Char) : Option (List Char) :=
  match cs with
  | ':' :: s1 :: s2 :: rest =>
    if s1.isDigit && s2.isDigit then
      if col1 then zFinish hh mm (10 * digitVal s1 + digitVal s2) (zOptFrac rest)
      else none
    else zFinish hh mm 0 cs
  | s1 :: s2 :: rest =>
    if s1.isDigit && s2.isDigit then
      if col1 then none
      else zFinish hh mm (10 * digitVal s1 + digitVal s2) (zOptFrac rest)
    else zFinish hh mm 0 cs
  | _ => zFinish hh mm 0 cs

/-- Minutes (and optional seconds) of a signed `%z` offset. -/
def parseZTail (hh : Nat) (cs : List Char) : Option (List Char) :=
  match cs with
  | ':' :: m1 :: m2 :: rest =>
    if m1.isDigit && m2.isDigit then parseZSec true hh (10 * digitVal m1 + digitVal m2) rest
    else none
  | m1 :: m2 :: rest =>
    if m1.isDigit && m2.isDigit then parseZSec false hh (10 * digitVal m1 + digitVal m2) rest
    else none
  | _ => none

/-- `%z`: `[+-]\d\d:?\d\d(:?\d\d(\.\d{1,6})?)?|(?-i:Z)`.  The `Z`
alternative is case-sensitive even under `IGNORECASE`. -/
def parseZ : List Char → Option (List Char)
  | [] => none
  | c :: rest =>
    if c = 'Z' then some rest
    else if c = '+' || c = '-' then
      match rest with
      | h1 :: h2 :: rest2 =>
        if h1.isDigit && h2.isDigit then parseZTail (10 * digitVal h1 + digitVal h2) rest2
        else none
      | _ => none
    else none

/-- Validation performed by the `datetime` constructor after the regex
match: `1 <= year` (the four-digit regex already bounds it by 9999), the
day must exist in the month, and seconds 60/61 admitted by the `%S`
regex are rejected. -/
def validDT (y mo d ss : Nat) : Bool :=
  decide (1 ≤ y) && decide (d ≤ daysInMonth y mo) && decide (ss ≤ 59)

/-- The `%Y-%m-%d` prefix shared by all three formats of the source:
year, month, day and the remaining characters. -/
def parseDatePart (cs : List Char) : Option (Nat × Nat × Nat × List Char) :=
  (parseYear cs).bind fun ycs =>
  (lit '-' ycs.2).bind fun cs1 =>
  (parseMonth cs1).bind fun mocs =>
  (lit '-' mocs.2).bind fun cs2 =>
  (parseDay cs2).bind fun dcs =>
  some (ycs.1, mocs.1, dcs.1, dcs.2)

/-- The `T%H:%M:%S` part shared by all three formats: hour, minute,
second and the remaining characters. -/
def parseTimePart (cs : List Char) : Option (Nat × Nat × Nat × List Char) :=
  (lit 'T' cs).bind fun cs3 =>
  (parseHour cs3).bind fun hcs =>
  (lit ':' hcs.2).bind fun cs4 =>
  (parseMinute cs4).bind fun mics =>
  (lit ':' mics.2).bind fun cs5 =>
  (parseSecond cs5).bind fun scs =>
  some (hcs.1, mics.1, scs.1, scs.2)

/-- `datetime.strptime(s, '%Y-%m-%dT%H:%M:%SZ').date()` as an `Option`
(`none` is the raised `ValueError`). -/
def strptime1 (s : String) : Option Date :=
  (parseDatePart s.data).bind fun a =>
  (parseTimePart a.2.2.2).bind fun b =>
  (lit 'Z' b.2.2.2).bind fun cs =>
  match cs with
  | [] => if validDT a.1 a.2.1 a.2.2.1 b.2.2.1 then some ⟨a.1, a.2.1, a.2.2.1⟩ else none
  | _ => none

/-- `datetime.strptime(s, '%Y-%m-%dT%H:%M:%S.%f%z').date()` as an `Option`. -/
def strptime2 (s : String) : Option Date :=
  (parseDatePart s.data).bind fun a =>
  (parseTimePart a.2.2.2).bind fun b =>
  (lit '.' b.2.2.2).bind fun cs6 =>
  (parseFrac cs6).bind fun cs7 =>
  (parseZ cs7).bind fun cs =>
  match cs with
  | [] => if validDT a.1 a.2.1 a.2.2.1 b.2.2.1 then some ⟨a.1, a.2.1, a.2.2.1⟩ else none
  | _ => none

/-- `datetime.strptime(s, '%Y-%m-%dT%H:%M:%S%z').date()` as an `Option`. -/
def strptime3 (s : String) : Option Date :=
  (parseDatePart s.data).bind fun a =>
  (parseTimePart a.2.2.2).bind fun b =>
  (parseZ b.2.2.2).bind fun cs =>
  match cs with
  | [] => if validDT a.1 a.2.1 a.2.2.1 b.2.2.1 then some ⟨a.1, a.2.1, a.2.2.1⟩ else none
  | _ => none

/-- `GitHubContributionsAnalyzer.parse_datetime`: try the three formats
in their listed order, return the date of the first that parses, `none`
(the final `raise ValueError`) when none does. -/
def parse_datetime (s : String) : Option Date :=
  match strptime1 s with
  | some dt => some dt
  | none =>
    match strptime2 s with
    | some dt => some dt
    | none =>
      match strptime3 s with
      | some dt => some dt
      | none => none

/-- Character of a single digit. -/
def digitChar (n : Nat) : Char := Char.ofNat (48 + n)

/-- Two-digit zero-padded rendering of `n < 100`. -/
def pad2 (n : Nat) : List Char := [digitChar (n / 10), digitChar (n % 10)]

/-- Four-digit zero-padded rendering of `n < 10000`. -/
def pad4 (n : Nat) : List Char :=
  [digitChar (n / 1000), digitChar (n / 100 % 10), digitChar (n / 10 % 10), digitChar (n % 10)]

/-- A date the Python `datetime` constructor accepts (year 1–9999). -/
def ValidDate (d : Date) : Prop :=
  1 ≤ d.year ∧ d.year ≤ 9999 ∧ 1 ≤ d.month ∧ d.month ≤ 12 ∧
    1 ≤ d.day ∧ d.day ≤ daysInMonth d.year d.month

instance (d : Date) : Decidable (ValidDate d) := by unfold ValidDate; infer_instance

/-- Modelled from the spec: `Format(d)` for the first supported encoding
(plain UTC with seconds precision).  The source has no formatter; the
spec's round-trip property needs the canonical zero-padded rendering of
a date in each encoding, with a zero time-of-day. -/
def format1 (d : Date) : String :=
  ⟨pad4 d.year ++ ('-' :: (pad2 d.month ++ ('-' :: (pad2 d.day ++
    ['T', '0', '0', ':', '0', '0', ':', '0', '0', 'Z']))))⟩

/-- Modelled from the spec: `Format(d)` for the second supported
encoding (UTC with fractional seconds and offset). -/
def format2 (d : Date) : String :=
  ⟨pad4 d.year ++ ('-' :: (pad2 d.month ++ ('-' :: (pad2 d.day ++
    ['T', '0', '0', ':', '0', '0', ':', '0', '0', '.',
     '0', '0', '0', '0', '0', '0', '+', '0', '0', ':', '0', '0']))))⟩

/-- Modelled from the spec: `Format(d)` for the third supported encoding
(offset without fractional seconds). -/
def format3 (d : Date) : String :=
  ⟨pad4 d.year ++ ('-' :: (pad2 d.month ++ ('-' :: (pad2 d.day ++
    ['T', '0', '0', ':', '0', '0', ':', '0', '0', '+', '0', '0', ':', '0', '0']))))⟩

/-! ## The paginated commit fetcher

`fetch_commits_for_contributor` performs one `session.get` per loop
iteration (plus one extra `get` after a 403).  The transport is
embedded as the list of results of these successive GETs.  A raw commit
record is represented by the only field the script ever reads from it,
`commit['commit']['committer']['date']`. -/

/-- A raw commit record: its committer date string. -/
def RawCommit := String
deriving DecidableEq, Repr

/-- Result of one `session.get` of a commit page.  `ok records` is a
200 response whose JSON body is `records`; `rateLimited` is a 403
status; `fault` is a raised transport exception or any other error
status (which `raise_for_status` turns into an exception). -/
inductive GetResult where
  | ok (records : List RawCommit)
  | rateLimited
  | fault
deriving DecidableEq, Repr

/-- Observable outcome of `fetch_commits_for_contributor`: the returned
commit list, whether `logger.error` ran (the `except` branch), the
total seconds slept in rate-limit backoffs, and the `page` parameter of
each GET issued, in order. -/
structure FetchResult where
  commits : List RawCommit
  errorLogged : Bool
  sleepSeconds : Nat
  pagesRequested : List Nat
deriving DecidableEq, Repr

/-- The `while True` loop of `fetch_commits_for_contributor`, consuming
the transport's successive GET results.  `page` is the loop's page
counter (starting at 1), `acc` the `all_commits` accumulator.  An
exhausted transport is treated as a raising GET.  Each iteration: GET;
on 403 warn, sleep 60 s and GET the same page once more; any exception
(transport fault, or `raise_for_status` on a non-2xx retry response) is
caught by the loop's `except`, logged, and breaks the loop — returning
the commits accumulated so far; an empty page breaks without logging;
otherwise the page is appended and the loop stops once the next page
number exceeds 10. -/
def fetchLoop : List GetResult → Nat → List RawCommit → FetchResult
  | [], page, acc => ⟨acc, true, 0, [page]⟩
  | .fault :: _, page, acc => ⟨acc, true, 0, [page]⟩
  | .rateLimited :: [], page, acc => ⟨acc, true, 60, [page, page]⟩
  | .rateLimited :: .fault :: _, page, acc => ⟨acc, true, 60, [page, page]⟩
  | .rateLimited :: .rateLimited :: _, page, acc => ⟨acc, true, 60, [page, page]⟩
  | .rateLimited :: .ok recs :: rest, page, acc =>
    if recs.isEmpty then ⟨acc, false, 60, [page, page]⟩
    else if page + 1 > 10 then ⟨acc ++ recs, false, 60, [page, page]⟩
    else
      let r := fetchLoop rest (page + 1) (acc ++ recs)
      ⟨r.commits, r.errorLogged, 60 + r.sleepSeconds, page :: page :: r.pagesRequested⟩
  | .ok recs :: rest, page, acc =>
    if recs.isEmpty then ⟨acc, false, 0, [page]⟩
    else if page + 1 > 10 then ⟨acc ++ recs, false, 0, [page]⟩
    else
      let r := fetchLoop rest (page + 1) (acc ++ recs)
      ⟨r.commits, r.errorLogged, r.sleepSeconds, page :: r.pagesRequested⟩

/-- `fetch_commits_for_contributor`, given the transport behaviour for
this (repository, contributor) pair: page 1, empty accumulator. -/
def fetch_commits_for_contributor (transport : List GetResult) : FetchResult :=
  fetchLoop transport 1 []

/-! ## The contribution aggregator

`analyze_contributions` builds a DataFrame of rows
`{repository, contributor, commit_date, commit_count}` and groups it by
`(repository, contributor, Grouper(commit_date, freq))` for the
frequencies `D`, `W` and `M`, summing `commit_count`.  Dates are
embedded by their proleptic-Gregorian day number (rata die, with day 1
= 0001-01-01, a Monday); a pandas group label is embedded as the day
number of the period's end: the day itself for `D`, the Sunday on or
after it for `W` (pandas weeks end on Sunday), the last day of its
month for `M`. -/

/-- Days before January 1 of year `y` in the proleptic Gregorian
calendar. -/
def daysBeforeYear (y : Nat) : Nat :=
  365 * (y - 1) + (y - 1) / 4 - (y - 1) / 100 + (y - 1) / 400

/-- Days before the first of month `m` within its year. -/
def daysBeforeMonth (leap : Bool) (m : Nat) : Nat :=
  match m with
  | 1 => 0
  | 2 => 31
  | 3 => 59 + if leap then 1 else 0
  | 4 => 90 + if leap then 1 else 0
  | 5 => 120 + if leap then 1 else 0
  | 6 => 151 + if leap then 1 else 0
  | 7 => 181 + if leap then 1 else 0
  | 8 => 212 + if leap then 1 else 0
  | 9 => 243 + if leap then 1 else 0
  | 10 => 273 + if leap then 1 else 0
  | 11 => 304 + if leap then 1 else 0
  | 12 => 334 + if leap then 1 else 0
  | _ => 0

/-- Rata die day number of a date (0001-01-01 is day 1). -/
def rataDie (d : Date) : Nat :=
  daysBeforeYear d.year + daysBeforeMonth (isLeap d.year) d.month + d.day

/-- Day number of the pandas `freq='D'` group label of a date. -/
def dayLabel (d : Date) : Nat := rataDie d

/-- Day number of the pandas `freq='W'` group label: the Sunday on or
after the date (0001-01-01 is a Monday, so Sundays are the day numbers
divisible by 7). -/
def weekLabel (d : Date) : Nat := rataDie d + (7 - rataDie d % 7) % 7

/-- Day number of the pandas `freq='M'` group label: the last day of
the date's month. -/
def monthLabel (d : Date) : Nat := rataDie ⟨d.year, d.month, daysInMonth d.year d.month⟩

/-- One row of the `all_contributions` list built by the orchestrator. -/
structure CommitEvent where
  repository : String
  contributor : String
  commit_date : Date
  commit_count : Nat
deriving DecidableEq, Repr

/-- The three aggregation granularities. -/
inductive Granularity where
  | daily
  | weekly
  | monthly
deriving DecidableEq, Repr

/-- Period label of an event's date at a granularity. -/
def periodLabel (g : Granularity) (d : Date) : Nat :=
  match g with
  | .daily => dayLabel d
  | .weekly => weekLabel d
  | .monthly => monthLabel d

/-- Grouping key of the pandas `groupby` at granularity `g`. -/
def keyOf (g : Granularity) (e : CommitEvent) : String × String × Nat :=
  (e.repository, e.contributor, periodLabel g e.commit_date)

/-- One row of an aggregated table. -/
structure ContributionBucket where
  repository : String
  contributor : String
  period : Nat
  total_count : Nat
deriving DecidableEq, Repr

/-- Row for key `k` with total `t`. -/
def mkBucket (k : String × String × Nat) (t : Nat) : ContributionBucket :=
  ⟨k.1, k.2.1, k.2.2, t⟩

/-- Sum of the weights of the elements of `l` in the fiber of `k` under
`kf` (the `['commit_count'].sum()` of one group). -/
def fiberSum {α κ : Type} [DecidableEq κ] (kf : α → κ) (w : α → Nat) (l : List α) (k : κ) : Nat :=
  ((l.filter fun a => decide (kf a = k)).map w).sum

/-- The aggregated table at granularity `g`: one row per distinct
grouping key occurring in `events`, carrying the group's summed
`commit_count`.  Order is irrelevant (pandas sorts group keys; the spec
promises only an unordered collection). -/
def bucketRows (g : Granularity) (events : List CommitEvent) : List ContributionBucket :=
  ((events.map (keyOf g)).dedup).map fun k =>
    mkBucket k (fiberSum (keyOf g) (fun e => e.commit_count) events k)

/-- The `analyses` dictionary built from a non-empty event collection. -/
structure Analyses where
  daily_contributions : List ContributionBucket
  weekly_contributions : List ContributionBucket
  monthly_contributions : List ContributionBucket
deriving DecidableEq, Repr

/-- The three grouped tables of `analyze_contributions`. -/
def aggregate (events : List CommitEvent) : Analyses :=
  ⟨bucketRows .daily events, bucketRows .weekly events, bucketRows .monthly events⟩

/-! ## The orchestrator

`analyze_contributions` loops over repositories, then contributors.
The environment supplies, for each repository, the outcome of
`get_repository_contributors` (a contributor list, or a raised
exception), and for each contributor the transport behaviour of its
commit fetch.  Faults are modelled where the source catches them: a
repository-listing fault at the repository `except`, a
`parse_datetime` failure at the contributor `except`; the fetch
catches transport faults internally and never raises. -/

/-- A `logger.error` call of the orchestrator's two `except` handlers. -/
inductive LogEntry where
  | contributorError (repo contributor : String)
  | repoError (repo : String)
deriving DecidableEq, Repr

/-- A contributor together with the transport behaviour of its commit
fetch. -/
structure ContributorEnv where
  name : String
  transport : List GetResult
deriving Repr

/-- A repository together with the outcome of listing its
contributors (`Except.error` is a raised exception). -/
structure RepoEnv where
  name : String
  contributorsResult : Except Unit (List ContributorEnv)
deriving Repr

/-- The `commits_data` list comprehension: build one CommitEvent per
fetched commit, with `commit_count = 1`.  A `parse_datetime` failure
raises, so the whole comprehension yields an error and nothing is kept. -/
def commitsData (repo contributor : String) : List RawCommit → Except Unit (List CommitEvent)
  | [] => .ok []
  | ts :: rest =>
    match parse_datetime ts with
    | none => .error ()
    | some d =>
      match commitsData repo contributor rest with
      | .error e => .error e
      | .ok evs => .ok (⟨repo, contributor, d, 1⟩ :: evs)

/-- The body of the contributor loop: fetch, then build `commits_data`;
a raised `ValueError` from `parse_datetime` is caught by the
contributor-level `except`, which logs and keeps nothing.  Returns the
events contributed and the `logger.error` calls made. -/
def processContributor (repo : String) (c : ContributorEnv) : List CommitEvent × List LogEntry :=
  let f := fetch_commits_for_contributor c.transport
  let fetchLog : List LogEntry :=
    if f.errorLogged then [.contributorError repo c.name] else []
  match commitsData repo c.name f.commits with
  | .error _ => ([], fetchLog ++ [.contributorError repo c.name])
  | .ok evs => (evs, fetchLog)

/-- The contributor loop of one repository. -/
def processContributors (repo : String) : List ContributorEnv → List CommitEvent × List LogEntry
  | [] => ([], [])
  | c :: cs =>
    let r := processContributor repo c
    let rest := processContributors repo cs
    (r.1 ++ rest.1, r.2 ++ rest.2)

/-- The body of the repository loop: a fault from
`get_repository_contributors` is caught by the repository-level
`except`, which logs and moves on. -/
def processRepo (r : RepoEnv) : List CommitEvent × List LogEntry :=
  match r.contributorsResult with
  | .error _ => ([], [.repoError r.name])
  | .ok cs => processContributors r.name cs

/-- The repository loop: the full `all_contributions` collection and
the `logger.error` calls of the run. -/
def collectAll : List RepoEnv → List CommitEvent × List LogEntry
  | [] => ([], [])
  | r :: rs =>
    let a := processRepo r
    let rest := collectAll rs
    (a.1 ++ rest.1, a.2 ++ rest.2)

/-- `analyze_contributions`: collect events over all repositories and
contributors; with no contributions return the empty dictionary `{}`
(embedded as `none`, the explicit no-data result), otherwise the three
grouped tables. -/
def analyze_contributions (repos : List RepoEnv) : Option Analyses :=
  let all := (collectAll repos).1
  if all = [] then none else some (aggregate all)

/-- `export_reports`, observed through the CSV files it writes: one
`to_csv` call per entry of the `analyses` dictionary, none when the
dictionary is empty. -/
def export_reports (analyses : Option Analyses) : List String :=
  match analyses with
  | none => []
  | some _ =>
    ["daily_contributions_report.csv", "weekly_contributions_report.csv",
     "monthly_contributions_report.csv"]

/-- Sum of the bucket totals of one (repository, contributor) pair over
a whole table. -/
def pairTotals (rows : List ContributionBucket) (rp c : String) : Nat :=
  ((rows.filter fun r => decide (r.repository = rp ∧ r.contributor = c)).map
    fun r => r.total_count).sum

/-- Sum of all bucket totals of a table. -/
def totalsSum (rows : List ContributionBucket) : Nat :=
  (rows.map fun r => r.total_count).sum

/-! ## Lemmas about the fetcher -/

theorem sum_map_eq_length_mul {α : Type} (l : List α) (f : α → Nat) (c : Nat)
    (h : ∀ x ∈ l, f x = c) : (l.map f).sum = l.length * c := by
  induction l with
  | nil => simp
  | cons x xs ih =>
    have hx := h x (List.mem_cons_self ..)
    have := ih fun y hy => h y (List.mem_cons_of_mem _ hy)
    simp [hx, this]
    ring

/-- While the page ceiling is not yet reached and every page is
non-empty, the loop appends each page in turn and requests consecutive
page numbers; it stops right after processing page 10, leaving the rest
of the transport untouched. -/
theorem fetchLoop_okPages (pages : List (List RawCommit)) :
    ∀ (rest : List GetResult) (page : Nat) (acc : List RawCommit),
      pages ≠ [] → page + pages.length = 11 → (∀ p ∈ pages, p ≠ []) →
      fetchLoop (pages.map GetResult.ok ++ rest) page acc =
        ⟨acc ++ pages.flatten, false, 0, List.range' page pages.length⟩ := by
  induction pages with
  | nil => intro rest page acc hne _ _; exact absurd rfl hne
  | cons p ps ih =>
    intro rest page acc _ hlen hpp
    have hp : p ≠ [] := hpp p (List.mem_cons_self ..)
    have hpe : p.isEmpty = false := by
      cases p with
      | nil => exact absurd rfl hp
      | cons a l => rfl
    cases ps with
    | nil =>
      have hpage : page = 10 := by simpa using hlen
      subst hpage
      simp [fetchLoop, hpe, List.range']
    | cons p2 ps2 =>
      have h10 : ¬ page + 1 > 10 := by
        simp only [List.length_cons] at hlen
        omega
      have ihh := ih rest (page + 1) (acc ++ p) (by simp)
        (by simp only [List.length_cons] at hlen ⊢; omega)
        (fun q hq => hpp q (List.mem_cons_of_mem _ hq))
      rw [List.map_cons, List.cons_append, fetchLoop, if_neg (by simp [hpe]), if_neg h10]
      rw [ihh]
      simp only [List.length_cons, List.append_assoc, List.flatten_cons]
      rw [List.range'_succ, List.range'_succ, List.range'_succ]

/-! ## Claim theorems: fetcher and orchestrator -/

/-- C1, counterexample: a transport fault on page 2 after a successful
page 1.  The claim says the accumulated commits are discarded and the
fetch returns an empty sequence; the code logs the error, breaks the
loop and returns the page-1 commits. -/
theorem c1_counterexample :
    (fetch_commits_for_contributor [.ok ["2024-01-01T00:00:00Z"], .fault]).errorLogged = true ∧
    (fetch_commits_for_contributor [.ok ["2024-01-01T00:00:00Z"], .fault]).commits =
      ["2024-01-01T00:00:00Z"] ∧
    (["2024-01-01T00:00:00Z"] : List RawCommit) ≠ [] := by
  refine ⟨rfl, rfl, ?_⟩
  decide

/-- C1 (amended): a transport fault during a page request is logged and
stops the page loop, and the fetch returns the commits already
accumulated for that contributor (so an empty sequence only when the
fault hits page 1); the orchestrator's contributor loop always proceeds
to the next contributor, since the fetch call returns normally. -/
theorem c1_fault_keeps_accumulated :
    (∀ (rest : List GetResult) (page : Nat) (acc : List RawCommit),
        fetchLoop (.fault :: rest) page acc = ⟨acc, true, 0, [page]⟩) ∧
    (∀ (repo : String) (c : ContributorEnv) (cs : List ContributorEnv),
        processContributors repo (c :: cs) =
          ((processContributor repo c).1 ++ (processContributors repo cs).1,
            (processContributor repo c).2 ++ (processContributors repo cs).2)) :=
  ⟨fun _ _ _ => rfl, fun _ _ _ => rfl⟩

/-- C2, counterexample: page 1 succeeds, page 2 is rate-limited twice.
The claim says the second rate-limit signal propagates as a fatal error
for the fetch call (which, per the claimed error design, would discard
the accumulated records); the code catches the error raised by
`raise_for_status` inside the fetch, logs it, and returns the page-1
records normally. -/
theorem c2_counterexample :
    fetch_commits_for_contributor [.ok ["t1"], .rateLimited, .rateLimited] =
      ⟨["t1"], true, 60, [1, 2, 2]⟩ ∧ (["t1"] : List RawCommit) ≠ [] := by
  refine ⟨rfl, ?_⟩
  decide

/-- C2 (amended): on a rate-limit signal the fetcher sleeps the fixed
60 seconds and retries the same page exactly once; a second rate-limit
signal on the retry is caught inside the fetch — the error is logged,
the page loop stops, and the commits accumulated so far are returned.
A fetch rate-limited on page 1 whose retry succeeds and whose page 2 is
empty returns exactly the page-1 records. -/
theorem c2_rate_limit_retry :
    (∀ (rest : List GetResult) (page : Nat) (acc : List RawCommit),
        fetchLoop (.rateLimited :: .rateLimited :: rest) page acc =
          ⟨acc, true, 60, [page, page]⟩) ∧
    (∀ recs : List RawCommit, recs ≠ [] →
        fetch_commits_for_contributor [.rateLimited, .ok recs, .ok []] =
          ⟨recs, false, 60, [1, 1, 2]⟩) := by
  refine ⟨fun _ _ _ => rfl, fun recs h => ?_⟩
  have hpe : recs.isEmpty = false := by
    cases recs with
    | nil => exact absurd rfl h
    | cons a l => rfl
  simp [fetch_commits_for_contributor, fetchLoop, hpe]

/-- Witness for C2 at a concrete one-record page. -/
theorem c2_rate_limit_retry_witness :
    (["t1"] : List RawCommit) ≠ [] ∧
    fetch_commits_for_contributor [.rateLimited, .ok ["t1"], .ok []] =
      ⟨["t1"], false, 60, [1, 1, 2]⟩ :=
  ⟨by decide, c2_rate_limit_retry.2 ["t1"] (by decide)⟩

/-- C7: the fetcher stops (without logging) on an empty page, and
otherwise keeps requesting consecutive pages while pages are non-empty,
stopping unconditionally after page 10 — ten full pages of 100 records
yield exactly 1000 records even though the transport has more data. -/
theorem c7_page_ceiling :
    (∀ (rest : List GetResult) (page : Nat) (acc : List RawCommit),
        fetchLoop (.ok [] :: rest) page acc = ⟨acc, false, 0, [page]⟩) ∧
    (∀ (pages : List (List RawCommit)) (rest : List GetResult),
        pages.length = 10 → (∀ p ∈ pages, p ≠ []) →
        fetch_commits_for_contributor (pages.map GetResult.ok ++ rest) =
          ⟨pages.flatten, false, 0, List.range' 1 10⟩ ∧
        ((∀ p ∈ pages, p.length = 100) →
          (fetch_commits_for_contributor (pages.map GetResult.ok ++ rest)).commits.length =
            1000)) := by
  refine ⟨fun _ _ _ => rfl, fun pages rest hlen hpp => ?_⟩
  have hne : pages ≠ [] := by
    cases pages with
    | nil => simp at hlen
    | cons a l => exact List.cons_ne_nil a l
  have hmain : fetch_commits_for_contributor (pages.map GetResult.ok ++ rest) =
      ⟨pages.flatten, false, 0, List.range' 1 10⟩ := by
    have := fetchLoop_okPages pages rest 1 [] hne (by omega) hpp
    simpa [fetch_commits_for_contributor, hlen] using this
  refine ⟨hmain, fun h100 => ?_⟩
  rw [hmain]
  have : (pages.map List.length).sum = pages.length * 100 :=
    sum_map_eq_length_mul pages List.length 100 h100
  simp only [List.length_flatten]
  omega

/-- Witness for C7: ten full pages of 100 records, with an eleventh
full page available behind them. -/
theorem c7_page_ceiling_witness :
    (List.replicate 10 (List.replicate 100 ("x" : RawCommit))).length = 10 ∧
    (∀ p ∈ List.replicate 10 (List.replicate 100 ("x" : RawCommit)), p ≠ []) ∧
    (∀ p ∈ List.replicate 10 (List.replicate 100 ("x" : RawCommit)), p.length = 100) ∧
    (fetch_commits_for_contributor
        ((List.replicate 10 (List.replicate 100 ("x" : RawCommit))).map GetResult.ok ++
          [.ok (List.replicate 100 ("x" : RawCommit))])).commits.length = 1000 :=
  ⟨by decide, by decide, by decide,
    (c7_page_ceiling.2 (List.replicate 10 (List.replicate 100 ("x" : RawCommit)))
      [.ok (List.replicate 100 ("x" : RawCommit))] (by decide) (by decide)).2 (by decide)⟩

/-- C8: when zero CommitEvents were collected, `analyze_contributions`
returns the explicit no-data result (the empty dictionary, not a
dictionary of empty tables) and `export_reports` writes no CSV file. -/
theorem c8_no_data (repos : List RepoEnv) (h : (collectAll repos).1 = []) :
    analyze_contributions repos = none ∧
    export_reports (analyze_contributions repos) = [] := by
  have hn : analyze_contributions repos = none := by
    simp [analyze_contributions, h]
  exact ⟨hn, by rw [hn]; rfl⟩

/-- Witness for C8: the empty run. -/
theorem c8_no_data_witness :
    (collectAll []).1 = [] ∧
    analyze_contributions [] = none ∧ export_reports (analyze_contributions []) = [] :=
  ⟨rfl, c8_no_data [] rfl⟩

theorem collectAll_append (l1 l2 : List RepoEnv) :
    collectAll (l1 ++ l2) =
      ((collectAll l1).1 ++ (collectAll l2).1, (collectAll l1).2 ++ (collectAll l2).2) := by
  induction l1 with
  | nil => simp [collectAll]
  | cons r rs ih => simp [collectAll, ih]

/-- C9: a fault while listing the contributors of repository `X` is
caught at the repository level, logged, and the run's collected events
and final analyses are exactly those of the run without `X`. -/
theorem c9_repo_fault_isolated (pre post : List RepoEnv) (X : RepoEnv)
    (hX : X.contributorsResult = .error ()) :
    (collectAll (pre ++ X :: post)).1 = (collectAll (pre ++ post)).1 ∧
    (collectAll (pre ++ X :: post)).2 =
      (collectAll pre).2 ++ LogEntry.repoError X.name :: (collectAll post).2 ∧
    analyze_contributions (pre ++ X :: post) = analyze_contributions (pre ++ post) := by
  have hpr : processRepo X = ([], [.repoError X.name]) := by
    simp [processRepo, hX]
  have h1 : (collectAll (pre ++ X :: post)).1 = (collectAll (pre ++ post)).1 := by
    simp [collectAll_append, collectAll, hpr]
  refine ⟨h1, ?_, ?_⟩
  · simp [collectAll_append, collectAll, hpr]
  · simp [analyze_contributions, h1]

/-- Witness for C9 at a concrete three-repository run whose middle
repository fails to list contributors. -/
theorem c9_repo_fault_isolated_witness :
    (RepoEnv.mk "X" (.error ())).contributorsResult = .error () ∧
    ((collectAll ([⟨"a", .ok []⟩] ++ RepoEnv.mk "X" (.error ()) :: [⟨"b", .ok []⟩])).1 =
        (collectAll ([⟨"a", .ok []⟩] ++ [⟨"b", .ok []⟩])).1 ∧
      (collectAll ([⟨"a", .ok []⟩] ++ RepoEnv.mk "X" (.error ()) :: [⟨"b", .ok []⟩])).2 =
        (collectAll [⟨"a", .ok []⟩]).2 ++
          LogEntry.repoError "X" :: (collectAll [⟨"b", .ok []⟩]).2 ∧
      analyze_contributions ([⟨"a", .ok []⟩] ++ RepoEnv.mk "X" (.error ()) :: [⟨"b", .ok []⟩]) =
        analyze_contributions ([⟨"a", .ok []⟩] ++ [⟨"b", .ok []⟩])) :=
  ⟨rfl, c9_repo_fault_isolated [⟨"a", .ok []⟩] [⟨"b", .ok []⟩] (RepoEnv.mk "X" (.error ())) rfl⟩

/-! ## Lemmas about the grouping sum -/

theorem fiberSum_perm {α κ : Type} [DecidableEq κ] (kf : α → κ) (w : α → Nat)
    {l1 l2 : List α} (h : l1.Perm l2) (k : κ) :
    fiberSum kf w l1 k = fiberSum kf w l2 k :=
  ((h.filter _).map w).sum_eq

theorem sum_map_filter_or {α : Type} (w : α → Nat) (p q : α → Bool) (l : List α)
    (hdisj : ∀ a ∈ l, p a = true → q a = false) :
    ((l.filter fun a => p a || q a).map w).sum =
      ((l.filter p).map w).sum + ((l.filter q).map w).sum := by
  induction l with
  | nil => simp
  | cons x xs ih =>
    have ihh := ih fun a ha => hdisj a (List.mem_cons_of_mem _ ha)
    cases hp : p x with
    | true =>
      have hq : q x = false := hdisj x (List.mem_cons_self ..) hp
      simp [List.filter_cons, hp, hq, ihh]
      omega
    | false =>
      cases hq : q x with
      | true => simp [List.filter_cons, hp, hq, ihh]; omega
      | false => simp [List.filter_cons, hp, hq, ihh]

/-- Summing the fibers of pairwise-distinct keys is summing over the
elements whose key is among them. -/
theorem sum_fiberSum {α κ : Type} [DecidableEq κ] (kf : α → κ) (w : α → Nat) (l : List α) :
    ∀ ks : List κ, ks.Nodup →
      ((ks.map fun k => fiberSum kf w l k).sum =
        ((l.filter fun a => decide (kf a ∈ ks)).map w).sum) := by
  intro ks
  induction ks with
  | nil => intro _; simp
  | cons k ks ih =>
    intro hnd
    rw [List.nodup_cons] at hnd
    have hpred : (fun a => decide (kf a ∈ k :: ks)) =
        fun a => (decide (kf a = k) || decide (kf a ∈ ks)) := by
      funext a
      simp [List.mem_cons]
    have hdisj : ∀ a ∈ l, decide (kf a = k) = true → decide (kf a ∈ ks) = false := by
      intro a _ hak
      simp only [decide_eq_true_eq] at hak
      simp [hak, hnd.1]
    rw [List.map_cons, List.sum_cons, ih hnd.2, hpred,
      sum_map_filter_or w _ _ l hdisj]
    rfl

/-- Every element's key lies in the deduplicated key list, so the
fibers of the distinct keys partition the whole weight sum. -/
theorem sum_fiberSum_all {α κ : Type} [DecidableEq κ] (kf : α → κ) (w : α → Nat) (l : List α) :
    (((l.map kf).dedup).map fun k => fiberSum kf w l k).sum = (l.map w).sum := by
  rw [sum_fiberSum kf w l _ (List.nodup_dedup _)]
  congr 1
  apply congrArg
  apply List.filter_eq_self.mpr
  intro a ha
  simp [List.mem_dedup]
  exact ⟨a, ha, rfl⟩

/-- Restricting the distinct keys by a predicate on keys restricts the
weight sum to the elements whose key satisfies it. -/
theorem sum_fiberSum_filterKeys {α κ : Type} [DecidableEq κ] (kf : α → κ) (w : α → Nat)
    (l : List α) (p : κ → Bool) :
    ((((l.map kf).dedup.filter p).map fun k => fiberSum kf w l k).sum =
      ((l.filter fun a => p (kf a)).map w).sum) := by
  rw [sum_fiberSum kf w l _ ((List.nodup_dedup _).filter p)]
  congr 1
  apply congrArg
  apply List.filter_congr
  intro a ha
  have : kf a ∈ (l.map kf).dedup := by
    simp [List.mem_dedup]
    exact ⟨a, ha, rfl⟩
  simp [List.mem_filter, this]

/-! ## Claim theorems: aggregation -/

theorem bucketRows_perm (g : Granularity) {l1 l2 : List CommitEvent} (h : l1.Perm l2) :
    (bucketRows g l1).Perm (bucketRows g l2) := by
  unfold bucketRows
  have hf : (fun k => mkBucket k (fiberSum (keyOf g) (fun e => e.commit_count) l1 k)) =
      fun k => mkBucket k (fiberSum (keyOf g) (fun e => e.commit_count) l2 k) := by
    funext k
    rw [fiberSum_perm _ _ h]
  rw [hf]
  exact ((h.map (keyOf g)).dedup).map _

/-- C5: aggregating any permutation of the same CommitEvent collection
yields set-equal daily, weekly and monthly tables. -/
theorem c5_perm_invariance (l1 l2 : List CommitEvent) (h : l1.Perm l2)
    (row : ContributionBucket) :
    (row ∈ (aggregate l1).daily_contributions ↔ row ∈ (aggregate l2).daily_contributions) ∧
    (row ∈ (aggregate l1).weekly_contributions ↔ row ∈ (aggregate l2).weekly_contributions) ∧
    (row ∈ (aggregate l1).monthly_contributions ↔
      row ∈ (aggregate l2).monthly_contributions) :=
  ⟨(bucketRows_perm .daily h).mem_iff, (bucketRows_perm .weekly h).mem_iff,
    (bucketRows_perm .monthly h).mem_iff⟩

/-- Witness for C5: a two-event collection and its swap, checked on a
row present in the tables. -/
theorem c5_perm_invariance_witness :
    ([⟨"r", "c", ⟨2024, 1, 1⟩, 1⟩, ⟨"r", "d", ⟨2024, 1, 8⟩, 1⟩] : List CommitEvent).Perm
      [⟨"r", "d", ⟨2024, 1, 8⟩, 1⟩, ⟨"r", "c", ⟨2024, 1, 1⟩, 1⟩] ∧
    ((⟨"r", "c", 738886, 1⟩ : ContributionBucket) ∈
        (aggregate [⟨"r", "c", ⟨2024, 1, 1⟩, 1⟩, ⟨"r", "d", ⟨2024, 1, 8⟩, 1⟩]).daily_contributions ↔
      (⟨"r", "c", 738886, 1⟩ : ContributionBucket) ∈
        (aggregate [⟨"r", "d", ⟨2024, 1, 8⟩, 1⟩, ⟨"r", "c", ⟨2024, 1, 1⟩, 1⟩]).daily_contributions) ∧
    ((⟨"r", "c", 738886, 1⟩ : ContributionBucket) ∈
        (aggregate [⟨"r", "c", ⟨2024, 1, 1⟩, 1⟩, ⟨"r", "d", ⟨2024, 1, 8⟩, 1⟩]).weekly_contributions ↔
      (⟨"r", "c", 738886, 1⟩ : ContributionBucket) ∈
        (aggregate [⟨"r", "d", ⟨2024, 1, 8⟩, 1⟩, ⟨"r", "c", ⟨2024, 1, 1⟩, 1⟩]).weekly_contributions) ∧
    ((⟨"r", "c", 738886, 1⟩ : ContributionBucket) ∈
        (aggregate [⟨"r", "c", ⟨2024, 1, 1⟩, 1⟩, ⟨"r", "d", ⟨2024, 1, 8⟩, 1⟩]).monthly_contributions ↔
      (⟨"r", "c", 738886, 1⟩ : ContributionBucket) ∈
        (aggregate [⟨"r", "d", ⟨2024, 1, 8⟩, 1⟩, ⟨"r", "c", ⟨2024, 1, 1⟩, 1⟩]).monthly_contributions) :=
  ⟨List.Perm.swap _ _ _,
    c5_perm_invariance _ _ (List.Perm.swap _ _ _) ⟨"r", "c", 738886, 1⟩⟩

theorem pairTotals_bucketRows (g : Granularity) (events : List CommitEvent) (rp c : String) :
    pairTotals (bucketRows g events) rp c =
      ((events.filter fun e => decide (e.repository = rp ∧ e.contributor = c)).map
        fun e => e.commit_count).sum := by
  unfold pairTotals bucketRows
  rw [List.filter_map, List.map_map]
  exact sum_fiberSum_filterKeys (keyOf g) (fun e => e.commit_count) events _

/-- C6: for every (repository, contributor) pair, the sum of its bucket
totals over the whole period is the same in the daily, weekly and
monthly tables. -/
theorem c6_cross_granularity (events : List CommitEvent) (rp c : String) :
    pairTotals (aggregate events).daily_contributions rp c =
      pairTotals (aggregate events).weekly_contributions rp c ∧
    pairTotals (aggregate events).weekly_contributions rp c =
      pairTotals (aggregate events).monthly_contributions rp c := by
  constructor <;>
    simp only [aggregate, pairTotals_bucketRows]

/-- C10: when every event carries count 1 (as the orchestrator always
builds them), every row of every aggregated table has a positive total,
and the totals of each table sum to the number of events — no event is
dropped or double-counted within a granularity. -/
theorem c10_conservation (events : List CommitEvent) (_hne : events ≠ [])
    (h1 : ∀ e ∈ events, e.commit_count = 1) :
    (∀ g : Granularity, ∀ row ∈ bucketRows g events, 1 ≤ row.total_count) ∧
    (∀ g : Granularity, totalsSum (bucketRows g events) = events.length) := by
  constructor
  · intro g row hrow
    rw [bucketRows, List.mem_map] at hrow
    obtain ⟨k, hk, hrk⟩ := hrow
    rw [List.mem_dedup, List.mem_map] at hk
    obtain ⟨e, he, hke⟩ := hk
    have hmem : e ∈ events.filter fun a => decide (keyOf g a = k) := by
      rw [List.mem_filter]
      exact ⟨he, by simp [hke]⟩
    have hle : e.commit_count ≤ fiberSum (keyOf g) (fun e => e.commit_count) events k :=
      List.single_le_sum (fun x _ => Nat.zero_le x) _
        (List.mem_map_of_mem (fun e => e.commit_count) hmem)
    rw [← hrk]
    show 1 ≤ fiberSum (keyOf g) (fun e => e.commit_count) events k
    calc 1 = e.commit_count := (h1 e he).symm
    _ ≤ _ := hle
  · intro g
    rw [totalsSum, bucketRows, List.map_map]
    have : ((fun r : ContributionBucket => r.total_count) ∘
        fun k => mkBucket k (fiberSum (keyOf g) (fun e => e.commit_count) events k)) =
        fun k => fiberSum (keyOf g) (fun e => e.commit_count) events k := rfl
    rw [this, sum_fiberSum_all,
      sum_map_eq_length_mul events (fun e => e.commit_count) 1 h1, Nat.mul_one]

/-- Witness for C10 at a concrete three-event collection. -/
theorem c10_conservation_witness :
    ([⟨"r", "c", ⟨2024, 1, 1⟩, 1⟩, ⟨"r", "c", ⟨2024, 1, 1⟩, 1⟩,
        ⟨"r", "c", ⟨2024, 1, 8⟩, 1⟩] : List CommitEvent) ≠ [] ∧
    (∀ e ∈ ([⟨"r", "c", ⟨2024, 1, 1⟩, 1⟩, ⟨"r", "c", ⟨2024, 1, 1⟩, 1⟩,
        ⟨"r", "c", ⟨2024, 1, 8⟩, 1⟩] : List CommitEvent), e.commit_count = 1) ∧
    ((∀ g : Granularity, ∀ row ∈ bucketRows g [⟨"r", "c", ⟨2024, 1, 1⟩, 1⟩,
        ⟨"r", "c", ⟨2024, 1, 1⟩, 1⟩, ⟨"r", "c", ⟨2024, 1, 8⟩, 1⟩], 1 ≤ row.total_count) ∧
      (∀ g : Granularity, totalsSum (bucketRows g [⟨"r", "c", ⟨2024, 1, 1⟩, 1⟩,
        ⟨"r", "c", ⟨2024, 1, 1⟩, 1⟩, ⟨"r", "c", ⟨2024, 1, 8⟩, 1⟩]) =
          ([⟨"r", "c", ⟨2024, 1, 1⟩, 1⟩, ⟨"r", "c", ⟨2024, 1, 1⟩, 1⟩,
            ⟨"r", "c", ⟨2024, 1, 8⟩, 1⟩] : List CommitEvent).length)) :=
  ⟨by decide, by decide, c10_conservation _ (by decide) (by decide)⟩

/-! ## Lemmas about the timestamp normalizer -/

theorem data_mk (cs : List Char) : (String.mk cs).data = cs := rfl

theorem digitChar_isDigit {k : Nat} (h : k < 10) : (digitChar k).isDigit = true := by
  interval_cases k <;> decide

theorem digitVal_digitChar {k : Nat} (h : k < 10) : digitVal (digitChar k) = k := by
  interval_cases k <;> decide

theorem daysInMonth_le (y m : Nat) : daysInMonth y m ≤ 31 := by
  unfold daysInMonth
  split <;> first | omega | (split <;> omega)

theorem parseField_pad2 (v2 v1 : Nat → Bool) {n : Nat} (h : n < 100) (hv : v2 n = true)
    (rest : List Char) : parseField v2 v1 (pad2 n ++ rest) = some (n, rest) := by
  have hq : n / 10 < 10 := by omega
  have hr : n % 10 < 10 := by omega
  have hsum : 10 * digitVal (digitChar (n / 10)) + digitVal (digitChar (n % 10)) = n := by
    rw [digitVal_digitChar hq, digitVal_digitChar hr]
    omega
  simp [pad2, parseField, digitChar_isDigit hq, digitChar_isDigit hr, hsum, hv]

theorem parseYear_pad4 {y : Nat} (h : y < 10000) (rest : List Char) :
    parseYear (pad4 y ++ rest) = some (y, rest) := by
  have h1 : y / 1000 < 10 := by omega
  have h2 : y / 100 % 10 < 10 := by omega
  have h3 : y / 10 % 10 < 10 := by omega
  have h4 : y % 10 < 10 := by omega
  have hsum : 1000 * digitVal (digitChar (y / 1000)) + 100 * digitVal (digitChar (y / 100 % 10)) +
      10 * digitVal (digitChar (y / 10 % 10)) + digitVal (digitChar (y % 10)) = y := by
    rw [digitVal_digitChar h1, digitVal_digitChar h2, digitVal_digitChar h3,
      digitVal_digitChar h4]
    omega
  simp [pad4, parseYear, digitChar_isDigit h1, digitChar_isDigit h2, digitChar_isDigit h3,
    digitChar_isDigit h4, hsum]

theorem parseDatePart_format {y mo dd : Nat} (hy : y < 10000) (hmo1 : 1 ≤ mo) (hmo : mo ≤ 12)
    (hd1 : 1 ≤ dd) (hd : dd ≤ 31) (tail : List Char) :
    parseDatePart (pad4 y ++ ('-' :: (pad2 mo ++ ('-' :: (pad2 dd ++ tail))))) =
      some (y, mo, dd, tail) := by
  have hvmo : (fun v => decide (1 ≤ v ∧ v ≤ 12)) mo = true := by simp [hmo1, hmo]
  have hvdd : (fun v => decide (1 ≤ v ∧ v ≤ 31)) dd = true := by simp [hd1, hd]
  have l1 : ∀ rest : List Char, lit '-' ('-' :: rest) = some rest := fun _ => rfl
  simp only [parseDatePart, parseYear_pad4 hy, Option.some_bind, l1, parseMonth, parseDay,
    parseField_pad2 (fun v => decide (1 ≤ v ∧ v ≤ 12)) (fun v => decide (1 ≤ v))
      (by omega : mo < 100) hvmo,
    parseField_pad2 (fun v => decide (1 ≤ v ∧ v ≤ 31)) (fun v => decide (1 ≤ v))
      (by omega : dd < 100) hvdd]

theorem parseTimePart_zeros (rest : List Char) :
    parseTimePart ('T' :: '0' :: '0' :: ':' :: '0' :: '0' :: ':' :: '0' :: '0' :: rest) =
      some (0, 0, 0, rest) := rfl

theorem validDT_date {d : Date} (h : ValidDate d) : validDT d.year d.month d.day 0 = true := by
  obtain ⟨h1, _, _, _, _, h6⟩ := h
  simp [validDT, h1, h6]

theorem strptime1_format1 {d : Date} (h : ValidDate d) : strptime1 (format1 d) = some d := by
  obtain ⟨h1, h2, h3, h4, h5, h6⟩ := h
  have hdp := parseDatePart_format (by omega : d.year < 10000) h3 h4 h5
    (le_trans h6 (daysInMonth_le _ _)) ['T', '0', '0', ':', '0', '0', ':', '0', '0', 'Z']
  have lz : ∀ rest : List Char, lit 'Z' ('Z' :: rest) = some rest := fun _ => rfl
  simp only [strptime1, format1, data_mk, hdp, Option.some_bind, parseTimePart_zeros, lz,
    validDT_date ⟨h1, h2, h3, h4, h5, h6⟩, if_true]

theorem strptime1_format2_none {d : Date} (h : ValidDate d) : strptime1 (format2 d) = none := by
  obtain ⟨h1, h2, h3, h4, h5, h6⟩ := h
  have hdp := parseDatePart_format (by omega : d.year < 10000) h3 h4 h5
    (le_trans h6 (daysInMonth_le _ _)) ['T', '0', '0', ':', '0', '0', ':', '0', '0', '.',
      '0', '0', '0', '0', '0', '0', '+', '0', '0', ':', '0', '0']
  have lz : lit 'Z' ['.', '0', '0', '0', '0', '0', '0', '+', '0', '0', ':', '0', '0'] =
      none := rfl
  simp only [strptime1, format2, data_mk, hdp, Option.some_bind, parseTimePart_zeros, lz,
    Option.none_bind]

theorem strptime2_format2 {d : Date} (h : ValidDate d) : strptime2 (format2 d) = some d := by
  obtain ⟨h1, h2, h3, h4, h5, h6⟩ := h
  have hdp := parseDatePart_format (by omega : d.year < 10000) h3 h4 h5
    (le_trans h6 (daysInMonth_le _ _)) ['T', '0', '0', ':', '0', '0', ':', '0', '0', '.',
      '0', '0', '0', '0', '0', '0', '+', '0', '0', ':', '0', '0']
  have e1 : lit '.' ['.', '0', '0', '0', '0', '0', '0', '+', '0', '0', ':', '0', '0'] =
      some ['0', '0', '0', '0', '0', '0', '+', '0', '0', ':', '0', '0'] := rfl
  have e2 : parseFrac ['0', '0', '0', '0', '0', '0', '+', '0', '0', ':', '0', '0'] =
      some ['+', '0', '0', ':', '0', '0'] := rfl
  have e3 : parseZ ['+', '0', '0', ':', '0', '0'] = some [] := rfl
  simp only [strptime2, format2, data_mk, hdp, Option.some_bind, parseTimePart_zeros,
    e1, e2, e3, validDT_date ⟨h1, h2, h3, h4, h5, h6⟩, if_true]

theorem strptime1_format3_none {d : Date} (h : ValidDate d) : strptime1 (format3 d) = none := by
  obtain ⟨h1, h2, h3, h4, h5, h6⟩ := h
  have hdp := parseDatePart_format (by omega : d.year < 10000) h3 h4 h5
    (le_trans h6 (daysInMonth_le _ _)) ['T', '0', '0', ':', '0', '0', ':', '0', '0',
      '+', '0', '0', ':', '0', '0']
  have lz : lit 'Z' ['+', '0', '0', ':', '0', '0'] = none := rfl
  simp only [strptime1, format3, data_mk, hdp, Option.some_bind, parseTimePart_zeros, lz,
    Option.none_bind]

theorem strptime2_format3_none {d : Date} (h : ValidDate d) : strptime2 (format3 d) = none := by
  obtain ⟨h1, h2, h3, h4, h5, h6⟩ := h
  have hdp := parseDatePart_format (by omega : d.year < 10000) h3 h4 h5
    (le_trans h6 (daysInMonth_le _ _)) ['T', '0', '0', ':', '0', '0', ':', '0', '0',
      '+', '0', '0', ':', '0', '0']
  have lz : lit '.' ['+', '0', '0', ':', '0', '0'] = none := rfl
  simp only [strptime2, format3, data_mk, hdp, Option.some_bind, parseTimePart_zeros, lz,
    Option.none_bind]

theorem strptime3_format3 {d : Date} (h : ValidDate d) : strptime3 (format3 d) = some d := by
  obtain ⟨h1, h2, h3, h4, h5, h6⟩ := h
  have hdp := parseDatePart_format (by omega : d.year < 10000) h3 h4 h5
    (le_trans h6 (daysInMonth_le _ _)) ['T', '0', '0', ':', '0', '0', ':', '0', '0',
      '+', '0', '0', ':', '0', '0']
  have e3 : parseZ ['+', '0', '0', ':', '0', '0'] = some [] := rfl
  simp only [strptime3, format3, data_mk, hdp, Option.some_bind, parseTimePart_zeros,
    e3, validDT_date ⟨h1, h2, h3, h4, h5, h6⟩, if_true]

/-! ## Claim theorems: timestamp normalizer -/

/-- C3: `parse_datetime` tries the three encodings in their fixed
order, returns the date of the first that parses, and fails exactly
when none of them parses — in particular on `"2024/01/01"`. -/
theorem c3_first_format (s : String) (d : Date) :
    (parse_datetime s = some d ↔
      (strptime1 s = some d ∨ (strptime1 s = none ∧ strptime2 s = some d) ∨
        (strptime1 s = none ∧ strptime2 s = none ∧ strptime3 s = some d))) ∧
    (parse_datetime s = none ↔
      (strptime1 s = none ∧ strptime2 s = none ∧ strptime3 s = none)) ∧
    parse_datetime "2024/01/01" = none := by
  refine ⟨?_, ?_, by decide⟩ <;>
  · unfold parse_datetime
    cases e1 : strptime1 s <;> cases e2 : strptime2 s <;> cases e3 : strptime3 s <;>
      simp

/-- C4: for each of the three encodings, formatting a valid date and
normalizing the result round-trips back to the date. -/
theorem c4_roundtrip (d : Date) (h : ValidDate d) :
    parse_datetime (format1 d) = some d ∧ parse_datetime (format2 d) = some d ∧
      parse_datetime (format3 d) = some d := by
  refine ⟨?_, ?_, ?_⟩ <;> unfold parse_datetime
  · rw [strptime1_format1 h]
  · rw [strptime1_format2_none h, strptime2_format2 h]
  · rw [strptime1_format3_none h, strptime2_format3_none h, strptime3_format3 h]

/-- Witness for C4 at the concrete date 2024-01-02. -/
theorem c4_roundtrip_witness :
    ValidDate ⟨2024, 1, 2⟩ ∧
    (parse_datetime (format1 ⟨2024, 1, 2⟩) = some ⟨2024, 1, 2⟩ ∧
      parse_datetime (format2 ⟨2024, 1, 2⟩) = some ⟨2024, 1, 2⟩ ∧
      parse_datetime (format3 ⟨2024, 1, 2⟩) = some ⟨2024, 1, 2⟩) :=
  ⟨by decide, c4_roundtrip ⟨2024, 1, 2⟩ (by decide)⟩

end GHContrib
